import Mathlib

/-!
Verification of the RWX skills evaluation harness (Go sources under evals/).

The development shallowly embeds:
* the RWX config model and YAML decoding (rwx.go),
* the assertion engine (assertions.go),
* the Claude trace model (claude.go),
* the baseline regression comparator (baseline.go),
and proves the documented behavioural properties against these embeddings.

Go strings are modelled by Lean `String`; byte-level prefix/suffix/substring
tests on valid UTF-8 coincide with character-level ones, so `strings.HasPrefix`,
`strings.HasSuffix` and `strings.Contains` are modelled on `String.toList`.
Go `int` is modelled by `Int` (no arithmetic here can overflow at realistic
magnitudes) and `float64` by `Rat` (the only float operations used are
division, comparison against small decimal constants, and truncation).
-/

namespace RWXSkills

/-- Model of Go strings.HasPrefix. -/
def goStrHasPre (s pre : String) : Bool := pre.toList.isPrefixOf s.toList

/-- Model of Go strings.HasSuffix. -/
def goStrHasSuf (s suf : String) : Bool := suf.toList.isSuffixOf s.toList

/-- Model of Go strings.Contains. -/
def goContains (s sub : String) : Bool := decide (sub.toList <:+: s.toList)

/-- Go fmt %v rendering of a string slice. -/
def goStrSlice (l : List String) : String := "[" ++ String.intercalate " " l ++ "]"

/-- Go fmt %q rendering of a string (escaping not modelled). -/
def goQuote (s : String) : String := "\"" ++ s ++ "\""

/-! ### YAML values

yaml.v3 nodes as seen by the decoder: string scalars, other scalars
(ints, bools, floats), sequences, string-keyed mappings, and null. -/

inductive Yaml where
  | null : Yaml
  | str : String → Yaml
  | scalar : Yaml
  | list : List Yaml → Yaml
  | map : List (String × Yaml) → Yaml

/-! ### Config model (rwx.go) -/

/-- BGProcess represents a background process (service) in an RWX task. -/
structure BGProcess where
  key : String := ""
  run : String := ""
  readyCheck : String := ""

/-- RWXTask represents a single task in an RWX config.
The Go field With (map[string]any) keeps raw YAML values; If is renamed
ifCond because if is a Lean keyword. -/
structure RWXTask where
  key : String := ""
  call : String := ""
  run : String := ""
  use : List String := []
  withV : List (String × Yaml) := []
  env : List (String × String) := []
  ifCond : String := ""
  filter : List String := []
  parallel : Option Yaml := none
  backgroundProcesses : List BGProcess := []
  outputs : Option Yaml := none

/-- RWXConfig represents a parsed RWX configuration file. -/
structure RWXConfig where
  tasks : List RWXTask := []

/-- Task returns the first task matching the given key, or nil. -/
def RWXConfig.Task (c : RWXConfig) (key : String) : Option RWXTask :=
  c.tasks.find? (fun t => t.key == key)

/-- TaskKeys returns all task keys in order. -/
def RWXConfig.TaskKeys (c : RWXConfig) : List String :=
  c.tasks.map (fun t => t.key)

/-- HasTaskWithCall returns true if any task uses the given package call
prefix: an exact match, or the prefix followed by a space. -/
def RWXConfig.HasTaskWithCall (c : RWXConfig) (callPrefix : String) : Bool :=
  c.tasks.any (fun t => t.call == callPrefix || goStrHasPre t.call (callPrefix ++ " "))

/-- TasksWithRun returns all tasks whose run field contains the substring. -/
def RWXConfig.TasksWithRun (c : RWXConfig) (substr : String) : List RWXTask :=
  c.tasks.filter (fun t => goContains t.run substr)

/-- HasBackgroundProcess returns true if any task has a background process
whose key or run field contains the given substring. -/
def RWXConfig.HasBackgroundProcess (c : RWXConfig) (substr : String) : Bool :=
  c.tasks.any (fun t =>
    t.backgroundProcesses.any (fun bp => goContains bp.key substr || goContains bp.run substr))

/-- DependsOn returns true if the task with the given key lists dep in its
use array. -/
def RWXConfig.DependsOn (c : RWXConfig) (taskKey dep : String) : Bool :=
  match c.Task taskKey with
  | none => false
  | some t => t.use.contains dep

/-! ### YAML decoding (rwx.go FlexStrings and struct decoding) -/

/-- Decoding a YAML node into a Go string: only string scalars succeed. -/
def decodeString : Yaml → Option String
  | .str s => some s
  | _ => none

/-- Decoding a YAML node into a Go []string: a sequence of string scalars,
or null (which yields the zero value nil without error). -/
def decodeStringList : Yaml → Option (List String)
  | .list xs => xs.mapM decodeString
  | .null => some []
  | _ => none

/-- FlexStrings.UnmarshalYAML: try the list decoding first, fall back to a
single scalar (wrapped in a one-element list), otherwise error. -/
def decodeFlexStrings (y : Yaml) : Except String (List String) :=
  match decodeStringList y with
  | some l => Except.ok l
  | none =>
    match decodeString y with
    | some s => Except.ok [s]
    | none => Except.error "expected string or list of strings"

/-- Decode an optional string-valued field of a YAML mapping (missing or
null yields the zero value). -/
def strField (m : List (String × Yaml)) (k : String) : Except String String :=
  match m.lookup k with
  | none => Except.ok ""
  | some .null => Except.ok ""
  | some (.str s) => Except.ok s
  | some _ => Except.error ("field " ++ k ++ ": expected string")

/-- Decode an optional FlexStrings-valued field. -/
def flexField (m : List (String × Yaml)) (k : String) : Except String (List String) :=
  match m.lookup k with
  | none => Except.ok []
  | some v => decodeFlexStrings v

/-- Decode an optional map[string]string-valued field. -/
def strMapField (m : List (String × Yaml)) (k : String) :
    Except String (List (String × String)) :=
  match m.lookup k with
  | none => Except.ok []
  | some .null => Except.ok []
  | some (.map pairs) =>
    pairs.mapM (fun p =>
      match decodeString p.2 with
      | some s => Except.ok (p.1, s)
      | none => Except.error ("field " ++ k ++ ": expected string value"))
  | some _ => Except.error ("field " ++ k ++ ": expected mapping")

/-- Decode an optional map[string]any-valued field (values kept raw). -/
def anyMapField (m : List (String × Yaml)) (k : String) :
    Except String (List (String × Yaml)) :=
  match m.lookup k with
  | none => Except.ok []
  | some .null => Except.ok []
  | some (.map pairs) => Except.ok pairs
  | some _ => Except.error ("field " ++ k ++ ": expected mapping")

/-- Decode one background process entry. -/
def decodeBGProcess : Yaml → Except String BGProcess
  | .null => Except.ok {}
  | .map m => do
    let key ← strField m "key"
    let run ← strField m "run"
    let readyCheck ← strField m "ready-check"
    Except.ok { key, run, readyCheck }
  | _ => Except.error "background process: expected mapping"

/-- Decode the optional background-processes list of a task. -/
def bgListField (m : List (String × Yaml)) (k : String) :
    Except String (List BGProcess) :=
  match m.lookup k with
  | none => Except.ok []
  | some .null => Except.ok []
  | some (.list xs) => xs.mapM decodeBGProcess
  | some _ => Except.error ("field " ++ k ++ ": expected sequence")

/-- Decode one task entry of the tasks list. -/
def decodeTask : Yaml → Except String RWXTask
  | .null => Except.ok {}
  | .map m => do
    let key ← strField m "key"
    let call ← strField m "call"
    let run ← strField m "run"
    let use ← flexField m "use"
    let withV ← anyMapField m "with"
    let env ← strMapField m "env"
    let ifCond ← strField m "if"
    let filter ← flexField m "filter"
    let backgroundProcesses ← bgListField m "background-processes"
    Except.ok { key, call, run, use, withV, env, ifCond, filter,
                parallel := m.lookup "parallel",
                backgroundProcesses,
                outputs := m.lookup "outputs" }
  | _ => Except.error "task: expected mapping"

/-- Decode a whole configuration document. -/
def decodeConfig : Yaml → Except String RWXConfig
  | .null => Except.ok {}
  | .map m =>
    match m.lookup "tasks" with
    | none => Except.ok {}
    | some .null => Except.ok {}
    | some (.list xs) =>
      (xs.mapM decodeTask).map (fun tasks => { tasks })
    | some _ => Except.error "tasks: expected sequence"
  | _ => Except.error "config: expected mapping"

/-- ParseRWXConfig parses an RWX config from raw YAML bytes. The byte-level
YAML text parse is modelled by Option Yaml: none is malformed YAML text. -/
def ParseRWXConfig : Option Yaml → Except String RWXConfig
  | none => Except.error "parsing RWX config: invalid YAML"
  | some y =>
    match decodeConfig y with
    | Except.ok c => Except.ok c
    | Except.error e => Except.error ("parsing RWX config: " ++ e)

/-- The shallow glob .rwx/\x2a.yml over the work directory: the entries of
the .rwx subdirectory (base name and content, in glob order) whose base
name matches the pattern, i.e. ends in ".yml". -/
def rwxMatches (entries : List (String × Option Yaml)) : List (String × Option Yaml) :=
  entries.filter (fun e => goStrHasSuf e.1 ".yml")

/-- Parse every matched file in order, stopping at the first failure
(read errors are not modelled: contents are given). -/
def parseAllConfigs : List (String × Option Yaml) → Except String (List RWXConfig)
  | [] => Except.ok []
  | f :: rest =>
    match ParseRWXConfig f.2 with
    | Except.error e => Except.error ("parsing " ++ f.1 ++ ": " ++ e)
    | Except.ok c => (parseAllConfigs rest).map (fun cs => c :: cs)

/-- LoadRWXConfigs finds and parses all .rwx/\x2a.yml files in the given
directory; zero matches or any single parse failure fails the whole load. -/
def LoadRWXConfigs (entries : List (String × Option Yaml)) :
    Except String (List RWXConfig) :=
  if (rwxMatches entries).isEmpty then
    Except.error "no .rwx/*.yml files found"
  else
    parseAllConfigs (rwxMatches entries)

/-! ### Assertion engine (assertions.go)

TB, the subset of testing.TB used by assertion checks, only exposes
Helper (a no-op) and Errorf; a deterministic check is therefore fully
described by the list of Errorf messages it emits for a given config,
and that is how Check is modelled. -/

/-- ConfigAssertion is a named check against a parsed RWX config. -/
structure ConfigAssertion where
  name : String
  check : RWXConfig → List String

/-- sanitizeName replaces /, space, . and - by _ and deletes $, \x7b, \x7d
(strings.NewReplacer with single-character patterns). -/
def sanitizeName (s : String) : String :=
  String.mk (s.toList.foldr (fun c acc =>
    if c = '/' ∨ c = ' ' ∨ c = '.' ∨ c = '-' then '_' :: acc
    else if c = '$' ∨ c = '\x7b' ∨ c = '\x7d' then acc
    else c :: acc) [])

/-- firstLine truncates at the first newline. -/
def firstLine (s : String) : String :=
  match s.toList.findIdx? (fun c => c = '\n') with
  | some i => String.mk (s.toList.take i)
  | none => s

/-- HasTask asserts a task with the given key exists. -/
def HasTask (key : String) : ConfigAssertion :=
  { name := "has_task_" ++ key,
    check := fun cfg =>
      match cfg.Task key with
      | none => ["expected task " ++ goQuote key ++ " to exist, got tasks: "
                  ++ goStrSlice cfg.TaskKeys]
      | some _ => [] }

/-- HasPackage asserts some task calls a package with the given prefix. -/
def HasPackage (callPrefix : String) : ConfigAssertion :=
  { name := "has_package_" ++ sanitizeName callPrefix,
    check := fun cfg =>
      if cfg.HasTaskWithCall callPrefix then []
      else
        ["expected a task calling " ++ goQuote callPrefix ++ ", got calls: "
          ++ goStrSlice ((cfg.tasks.filter (fun t => t.call ≠ "")).map (fun t => t.call))] }

/-- HasRunContaining asserts at least one task's run field contains the
substring. -/
def HasRunContaining (substr : String) : ConfigAssertion :=
  { name := "has_run_" ++ sanitizeName substr,
    check := fun cfg =>
      if (cfg.TasksWithRun substr).length = 0 then
        ["expected a task with run containing " ++ goQuote substr ++ ", got: "
          ++ goStrSlice ((cfg.tasks.filter (fun t => t.run ≠ "")).map
              (fun t => t.key ++ ": " ++ firstLine t.run))]
      else [] }

/-- TaskDependsOn asserts that the task with taskKey lists dep in its use
array. -/
def TaskDependsOn (taskKey dep : String) : ConfigAssertion :=
  { name := "task_" ++ taskKey ++ "_depends_on_" ++ dep,
    check := fun cfg =>
      match cfg.Task taskKey with
      | none => ["task " ++ goQuote taskKey ++ " does not exist"]
      | some task =>
        if cfg.DependsOn taskKey dep then []
        else ["expected task " ++ goQuote taskKey ++ " to depend on " ++ goQuote dep
               ++ ", got use: " ++ goStrSlice task.use] }

/-- HasService asserts that some task has a background process matching the
substring. -/
def HasService (substr : String) : ConfigAssertion :=
  { name := "has_service_" ++ sanitizeName substr,
    check := fun cfg =>
      if cfg.HasBackgroundProcess substr then []
      else ["expected a background process matching " ++ goQuote substr ++ ", found none"] }

/-- HasEnvVar asserts that some task references the given env var, in the
task-level env block or as an inline KEY= assignment in the run field. -/
def HasEnvVar (envKey : String) : ConfigAssertion :=
  { name := "has_env_" ++ sanitizeName envKey,
    check := fun cfg =>
      if cfg.tasks.any (fun t =>
          (t.env.lookup envKey).isSome || goContains t.run (envKey ++ "=")) then []
      else ["expected some task to have env var " ++ goQuote envKey ++ ", found none"] }

/-- HasSecretRef asserts that some task references the given secret name
(substring "secrets.name" in run, env values or with values). -/
def HasSecretRef (secretName : String) : ConfigAssertion :=
  { name := "has_secret_" ++ sanitizeName secretName,
    check := fun cfg =>
      let needle := "secrets." ++ secretName
      if cfg.tasks.any (fun t =>
          goContains t.run needle
          || t.env.any (fun p => goContains p.2 needle)
          || t.withV.any (fun p =>
              match p.2 with
              | .str s => goContains s needle
              | _ => false)) then []
      else ["expected some task to reference secret " ++ goQuote secretName ++ ", found none"] }

/-- HasConditional asserts that the task with the given key has an if field. -/
def HasConditional (taskKey : String) : ConfigAssertion :=
  { name := "task_" ++ taskKey ++ "_has_conditional",
    check := fun cfg =>
      match cfg.Task taskKey with
      | none => ["task " ++ goQuote taskKey ++ " does not exist"]
      | some task =>
        if task.ifCond = "" then
          ["expected task " ++ goQuote taskKey
            ++ " to have a conditional (if field), but it was empty"]
        else [] }

/-- MinTaskCount asserts the config has at least n tasks. -/
def MinTaskCount (n : Nat) : ConfigAssertion :=
  { name := "min_task_count_" ++ toString n,
    check := fun cfg =>
      if cfg.tasks.length < n then
        ["expected at least " ++ toString n ++ " tasks, got "
          ++ toString cfg.tasks.length ++ ": " ++ goStrSlice cfg.TaskKeys]
      else [] }

/-- The loop body of Either: each candidate runs against a fresh probeTB
whose failed flag is exactly "the candidate emitted at least one Errorf";
a passing candidate returns with no outer message, and when every
candidate has failed one consolidated message is emitted. -/
def eitherGo (cfg : RWXConfig) : List ConfigAssertion → List String → List String
  | [], names => ["none of the alternatives passed: " ++ goStrSlice names]
  | a :: rest, names =>
    if a.check cfg = [] then []
    else eitherGo cfg rest (names ++ [a.name])

/-- Either passes if at least one of the given assertions passes. -/
def Either (name : String) (assertions : List ConfigAssertion) : ConfigAssertion :=
  { name, check := fun cfg => eitherGo cfg assertions [] }

/-! ### Trace model (claude.go) -/

/-- SkillInput is the parsed input for a Skill tool invocation. -/
structure SkillInput where
  skill : String := ""
  args : String := ""

/-- ContentItem is a parsed content block from a Claude message. -/
structure ContentItem where
  type : String := ""
  name : String := ""
  /-- The raw JSON input payload: none models a nil RawMessage; some none a
  payload present but not decodable as SkillInput; some (some si) one that
  decodes to si. -/
  input : Option (Option SkillInput) := none
  text : String := ""

/-- ClaudeMessage contains a role and array of content items (lazily
parsed); a list entry of none models a RawMessage that fails to decode as
a ContentItem and is skipped. -/
structure ClaudeMessage where
  role : String := ""
  content : List (Option ContentItem) := []

/-- TokenUsage tracks token counts from a result event. -/
structure TokenUsage where
  inputTokens : Int := 0
  cacheCreationInputTokens : Int := 0
  cacheReadInputTokens : Int := 0
  outputTokens : Int := 0

/-- ClaudeEvent is a top-level event from the agent's JSON output. -/
structure ClaudeEvent where
  type : String := ""
  subtype : String := ""
  message : ClaudeMessage := {}
  durationMS : Rat := 0
  totalCostUSD : Rat := 0
  usage : Option TokenUsage := none
  modelUsage : Option (List (String × TokenUsage)) := none
  skills : List String := []

/-- ExecutionResult holds the parsed output from a Claude headless run. -/
structure ExecutionResult where
  events : List ClaudeEvent := []
  rawOutput : List UInt8 := []
  prompt : String := ""

/-- ResultEvent returns the final "result" event, or nil if not found
(the Go loop walks the event slice from its end backward). -/
def ExecutionResult.ResultEvent (r : ExecutionResult) : Option ClaudeEvent :=
  r.events.reverse.find? (fun e => e.type == "result")

/-- ToolUses extracts all tool_use content items from all messages,
skipping content entries that fail to decode. -/
def ExecutionResult.ToolUses (r : ExecutionResult) : List ContentItem :=
  r.events.foldr (fun e acc =>
    e.message.content.filterMap (fun raw =>
      match raw with
      | some item => if item.type == "tool_use" then some item else none
      | none => none) ++ acc) []

/-- ToolNames returns deduplicated tool names from all tool_use items. -/
def ExecutionResult.ToolNames (r : ExecutionResult) : List String :=
  r.ToolUses.foldl (fun acc item =>
    if item.name ≠ "" ∧ item.name ∉ acc then acc ++ [item.name] else acc) []

/-- isRegisteredSkill checks whether the given name appears in the init
event's skills list; the Go loop returns from inside the first
system/init event it meets. -/
def ExecutionResult.isRegisteredSkill (r : ExecutionResult) (name : String) : Bool :=
  match r.events.find? (fun e => e.type == "system" && e.subtype == "init") with
  | some e => e.skills.contains name
  | none => false

/-- Model of the Go byte slice s[1:], used on prompts that start with the
one-byte character "/". -/
def strTail (s : String) : String := String.mk (s.toList.drop 1)

/-- Model of strings.SplitN(s, " ", 2)[0]: the part of s before its first
space character. -/
def goFirstSpaceToken (s : String) : String :=
  String.mk (s.toList.takeWhile (fun c => c ≠ ' '))

/-- The body of the tool-path loop of SkillUses: a Skill tool invocation
whose input decodes to a nonempty, not yet seen skill name is appended
(seen-map membership coincides with membership in the accumulated list). -/
def skillAcc (acc : List String) (item : ContentItem) : List String :=
  if item.name == "Skill" then
    match item.input with
    | some (some si) =>
      if si.skill ≠ "" ∧ si.skill ∉ acc then acc ++ [si.skill] else acc
    | _ => acc
  else acc

/-- SkillUses extracts skill names from Skill tool invocations and slash
command prompts, deduplicated in order of first appearance. -/
def ExecutionResult.SkillUses (r : ExecutionResult) : List String :=
  let toolSkills := r.ToolUses.foldl skillAcc []
  if r.prompt ≠ "" ∧ goStrHasPre r.prompt "/" then
    let name := goFirstSpaceToken (strTail r.prompt)
    if name ≠ "" ∧ name ∉ toolSkills ∧ r.isRegisteredSkill name then
      toolSkills ++ [name]
    else toolSkills
  else toolSkills

/-- Baseline holds a performance snapshot for an eval test. -/
structure Baseline where
  inputTokens : Int := 0
  cacheCreationInputTokens : Int := 0
  cacheReadInputTokens : Int := 0
  outputTokens : Int := 0
  executionTimeMS : Int := 0
  toolsUsed : List String := []
  skillsUsed : List String := []

/-- Go float64-to-int conversion: truncation toward zero. -/
def goTruncToInt (q : Rat) : Int :=
  if q < 0 then -((-q).floor) else q.floor

/-- Summary produces a Baseline from the execution result, together with
the Go error value (some message when no result event is found). -/
def ExecutionResult.Summary (r : ExecutionResult) : Baseline × Option String :=
  let b : Baseline := { toolsUsed := r.ToolNames, skillsUsed := r.SkillUses }
  match r.ResultEvent with
  | none =>
    (b, some "no result event found in Claude output (Claude may have crashed mid-run)")
  | some evt =>
    let b := { b with executionTimeMS := goTruncToInt evt.durationMS }
    let b :=
      match evt.usage with
      | some u =>
        { b with inputTokens := u.inputTokens,
                 cacheCreationInputTokens := u.cacheCreationInputTokens,
                 cacheReadInputTokens := u.cacheReadInputTokens,
                 outputTokens := u.outputTokens }
      | none => b
    (b, none)

/-! ### Baseline comparator (baseline.go) -/

/-- The failure message of checkThreshold for one metric (the percentage
part of the Go message is not modelled). -/
def regressionMsg (metric : String) (baseline current : Int) : String :=
  metric ++ (" regressed: baseline=" ++ toString baseline
    ++ ", current=" ++ toString current)

/-- checkThreshold reports the metric when its relative increase over the
baseline exceeds maxIncrease; a zero baseline is skipped. The float64
arithmetic of the Go code is modelled exactly over the rationals. -/
def checkThreshold (metric : String) (baseline current : Int) (maxIncrease : Rat) :
    List String :=
  if baseline = 0 then []
  else
    let increase : Rat := ((current : Rat) - (baseline : Rat)) / (baseline : Rat)
    if increase > maxIncrease then [regressionMsg metric baseline current]
    else []

/-- The observable outcome of AssertNoRegression: the Errorf failures, the
no-baseline warning, and the baseline written in update mode. -/
structure RegressionOutcome where
  failures : List String
  warnedNoBaseline : Bool
  savedBaseline : Option Baseline

/-- AssertNoRegression compares the current summary against the stored
baseline: update mode records and skips comparison, a missing baseline
warns and passes, otherwise the three metrics are each checked against
their own threshold. -/
def AssertNoRegression (update : Bool) (prev : Option Baseline) (current : Baseline) :
    RegressionOutcome :=
  if update then
    { failures := [], warnedNoBaseline := false, savedBaseline := some current }
  else
    match prev with
    | none => { failures := [], warnedNoBaseline := true, savedBaseline := none }
    | some p =>
      { failures :=
          checkThreshold "input_tokens" p.inputTokens current.inputTokens (20/100)
          ++ checkThreshold "output_tokens" p.outputTokens current.outputTokens (30/100)
          ++ checkThreshold "execution_time_ms" p.executionTimeMS current.executionTimeMS (50/100),
        warnedNoBaseline := false,
        savedBaseline := none }

/-! ### Specification-side views of skill detection

These definitions phrase the two skill-detection paths the way the
documentation describes them, to be compared with ExecutionResult.SkillUses. -/

/-- The skill name contributed by one tool_use content item: a Skill tool
invocation whose input decodes and carries a nonempty skill name. -/
def toolSkillOf (item : ContentItem) : Option String :=
  if item.name == "Skill" then
    match item.input with
    | some (some si) => if si.skill ≠ "" then some si.skill else none
    | _ => none
  else none

/-- The tool-based detection path, before deduplication. -/
def rawToolSkills (r : ExecutionResult) : List String :=
  r.ToolUses.filterMap toolSkillOf

/-- The skills list advertised by the first system/init event (empty when
no such event exists). -/
def initSkills (r : ExecutionResult) : List String :=
  match r.events.find? (fun e => e.type == "system" && e.subtype == "init") with
  | some e => e.skills
  | none => []

/-- The prompt-based detection path: a slash prompt contributes its leading
token up to the first space character, provided the name is nonempty and
registered by the init event. -/
def promptSkills (r : ExecutionResult) : List String :=
  if r.prompt ≠ "" ∧ goStrHasPre r.prompt "/" then
    let name := goFirstSpaceToken (strTail r.prompt)
    if name ≠ "" ∧ name ∈ initSkills r then [name] else []
  else []

/-- Append a string to the accumulator unless already present. -/
def insertNew (acc : List String) (s : String) : List String :=
  if s ∈ acc then acc else acc ++ [s]

/-- Order-preserving deduplication keeping first occurrences. -/
def dedupFirst (l : List String) : List String :=
  l.foldl insertNew []

/-- The leading token of a string up to the first whitespace character, as
the documentation words the slash-command extraction. -/
def specLeadingWsToken (s : String) : String :=
  String.mk (s.toList.takeWhile (fun c => ¬ c.isWhitespace))

/-! ### Helper lemmas -/

theorem goStrHasPre_iff (s pre : String) :
    goStrHasPre s pre = true ↔ ∃ rest : String, s = pre ++ rest := by
  unfold goStrHasPre
  rw [ List.isPrefixOf_iff_prefix]
  constructor
  · rintro ⟨t, ht⟩
    refine ⟨String.mk t, ?_⟩
    apply String.ext
    rw [String.data_append]
    simpa [String.toList] using ht.symm
  · rintro ⟨rest, rfl⟩
    exact ⟨rest.toList, by simp [String.toList]⟩

theorem goContains_iff (s sub : String) :
    goContains s sub = true ↔ sub.toList <:+: s.toList := by
  simp [goContains]

/-- C1: for every config and prefix P, HasTaskWithCall P returns true iff some
task's call field is exactly P or is P followed by a space and a suffix; in
particular a task calling "git/clone 2.0.2" matches prefix "git/clone" while a
task calling "git/clone-extra 1.0.0" does not, so there is no raw substring or
bare prefix matching. -/
theorem C1_hasTaskWithCall_exact_or_versioned :
    (∀ (c : RWXConfig) (P : String),
      c.HasTaskWithCall P = true ↔
        ∃ t ∈ c.tasks, t.call = P ∨ ∃ ver : String, t.call = P ++ " " ++ ver)
    ∧ (RWXConfig.mk [{ key := "versioned", call := "git/clone 2.0.2" }]).HasTaskWithCall
        "git/clone" = true
    ∧ (RWXConfig.mk [{ key := "similar", call := "git/clone-extra 1.0.0" }]).HasTaskWithCall
        "git/clone" = false := by
  refine ⟨?_, by decide, by decide⟩
  intro c P
  unfold RWXConfig.HasTaskWithCall
  rw [List.any_eq_true]
  constructor
  · rintro ⟨t, ht, hp⟩
    rw [Bool.or_eq_true] at hp
    refine ⟨t, ht, ?_⟩
    rcases hp with h | h
    · exact Or.inl (by simpa using h)
    · rcases (goStrHasPre_iff t.call (P ++ " ")).mp h with ⟨rest, hr⟩
      exact Or.inr ⟨rest, hr⟩
  · rintro ⟨t, ht, h | ⟨ver, hv⟩⟩
    · exact ⟨t, ht, by simp [h]⟩
    · refine ⟨t, ht, ?_⟩
      rw [Bool.or_eq_true]
      exact Or.inr ((goStrHasPre_iff t.call (P ++ " ")).mpr ⟨ver, hv⟩)

theorem emptyIffTrue (b : Bool) (m : String) :
    (if b then ([] : List String) else [m]) = [] ↔ b = true := by
  cases b <;> simp

/-- C9: the HasEnvVar K assertion succeeds exactly when some task has K as a
structured env key or its run script contains the substring "K=" anywhere;
in particular a run script containing "MYKEY=1" satisfies HasEnvVar "KEY". -/
theorem C9_hasEnvVar_textual_heuristic :
    (∀ (K : String) (cfg : RWXConfig),
      (HasEnvVar K).check cfg = [] ↔
        ∃ t ∈ cfg.tasks,
          (t.env.lookup K).isSome = true ∨ (K ++ "=").toList <:+: t.run.toList)
    ∧ (HasEnvVar "KEY").check (RWXConfig.mk [{ key := "t", run := "MYKEY=1" }]) = [] := by
  refine ⟨?_, by decide⟩
  intro K cfg
  rw [show (HasEnvVar K).check cfg
      = (if cfg.tasks.any (fun t => (t.env.lookup K).isSome || goContains t.run (K ++ "="))
         then []
         else ["expected some task to have env var " ++ goQuote K ++ ", found none"])
      from rfl]
  rw [emptyIffTrue, List.any_eq_true]
  constructor
  · rintro ⟨t, ht, hp⟩
    rw [Bool.or_eq_true] at hp
    exact ⟨t, ht, hp.imp id (fun h => (goContains_iff _ _).mp h)⟩
  · rintro ⟨t, ht, h⟩
    refine ⟨t, ht, ?_⟩
    rw [Bool.or_eq_true]
    exact h.imp id (fun hh => (goContains_iff _ _).mpr hh)

theorem eitherGo_all_fail (cfg : RWXConfig) :
    ∀ (as : List ConfigAssertion) (names : List String),
      (∀ a ∈ as, a.check cfg ≠ []) →
      eitherGo cfg as names
        = ["none of the alternatives passed: "
            ++ goStrSlice (names ++ as.map ConfigAssertion.name)] := by
  intro as
  induction as with
  | nil => intro names _; simp [eitherGo]
  | cons a rest ih =>
    intro names hall
    have ha := hall a (by simp)
    simp only [eitherGo, if_neg ha]
    rw [ih (names ++ [a.name]) (fun b hb => hall b (by simp [hb]))]
    simp

theorem eitherGo_some_pass (cfg : RWXConfig) :
    ∀ (as : List ConfigAssertion) (names : List String),
      (∃ a ∈ as, a.check cfg = []) → eitherGo cfg as names = [] := by
  intro as
  induction as with
  | nil =>
    rintro names ⟨a, ha, _⟩
    cases ha
  | cons a rest ih =>
    rintro names ⟨b, hb, hbc⟩
    by_cases hac : a.check cfg = []
    · simp only [eitherGo, if_pos hac]
    · have hbr : b ∈ rest := by
        rcases List.mem_cons.mp hb with rfl | h
        · exact absurd hbc hac
        · exact h
      simp only [eitherGo, if_neg hac]
      exact ih _ ⟨b, hbr, hbc⟩

/-- C2: the Either combinator emits no failure exactly when at least one
candidate assertion would independently succeed against the same config; a
failing candidate contributes nothing to the outer failure state (the outer
messages are either empty or exactly the one consolidated message), and when
every candidate fails the single consolidated message lists the names of all
candidates that were tried. -/
theorem C2_either_succeeds_iff_some_candidate :
    ∀ (nm : String) (as : List ConfigAssertion) (cfg : RWXConfig),
      ((∃ a ∈ as, a.check cfg = []) ∧ (Either nm as).check cfg = [])
      ∨ ((∀ a ∈ as, a.check cfg ≠ []) ∧
          (Either nm as).check cfg
            = ["none of the alternatives passed: "
                ++ goStrSlice (as.map ConfigAssertion.name)]) := by
  intro nm as cfg
  by_cases h : ∃ a ∈ as, a.check cfg = []
  · exact Or.inl ⟨h, eitherGo_some_pass cfg as [] h⟩
  · push_neg at h
    refine Or.inr ⟨h, ?_⟩
    simpa using eitherGo_all_fail cfg as [] h

theorem decodeStringList_strs (L : List String) :
    decodeStringList (Yaml.list (L.map Yaml.str)) = some L := by
  show (L.map Yaml.str).mapM decodeString = some L
  rw [← List.mapM'_eq_mapM]
  induction L with
  | nil => rfl
  | cons s rest ih => simp [List.mapM'_cons, decodeString, ih]

/-- C3: a scalar-or-list field encoded as a single scalar string S decodes to
the one-element list [S]; encoded as a list of strings it decodes to that list
unchanged; the decoder tries the list decoding first and errors only when
neither the list nor the scalar decoding succeeds. The same holds through
whole-document parsing of a task's use field. -/
theorem C3_flexStrings_scalar_or_list :
    (∀ S : String, decodeFlexStrings (Yaml.str S) = Except.ok [S])
    ∧ (∀ L : List String, decodeFlexStrings (Yaml.list (L.map Yaml.str)) = Except.ok L)
    ∧ (∀ (y : Yaml) (l : List String),
        decodeStringList y = some l → decodeFlexStrings y = Except.ok l)
    ∧ (∀ y : Yaml,
        (∃ e, decodeFlexStrings y = Except.error e) ↔
          decodeStringList y = none ∧ decodeString y = none)
    ∧ (∀ k S : String,
        decodeConfig (Yaml.map [("tasks",
            Yaml.list [Yaml.map [("key", Yaml.str k), ("use", Yaml.str S)]])])
          = Except.ok { tasks := [{ key := k, use := [S] }] })
    ∧ (∀ (k : String) (L : List String),
        decodeConfig (Yaml.map [("tasks",
            Yaml.list [Yaml.map [("key", Yaml.str k), ("use", Yaml.list (L.map Yaml.str))]])])
          = Except.ok { tasks := [{ key := k, use := L }] }) := by
  refine ⟨fun S => rfl, ?_, ?_, ?_, ?_, ?_⟩
  · intro L
    simp [decodeFlexStrings, decodeStringList_strs L]
  · intro y l h
    simp [decodeFlexStrings, h]
  · intro y
    cases h1 : decodeStringList y with
    | some l => simp [decodeFlexStrings, h1]
    | none =>
      cases h2 : decodeString y with
      | some s => simp [decodeFlexStrings, h1, h2]
      | none => simp [decodeFlexStrings, h1, h2]
  · intro k S
    rfl
  · intro k L
    have huse : decodeFlexStrings (Yaml.list (L.map Yaml.str)) = Except.ok L := by
      simp [decodeFlexStrings, decodeStringList_strs L]
    have htask :
        decodeTask (Yaml.map [("key", Yaml.str k), ("use", Yaml.list (L.map Yaml.str))])
          = Except.ok { key := k, use := L } := by
      show flexField [("key", Yaml.str k), ("use", Yaml.list (L.map Yaml.str))] "use" >>= _ = _
      rw [show flexField [("key", Yaml.str k), ("use", Yaml.list (L.map Yaml.str))] "use"
          = decodeFlexStrings (Yaml.list (L.map Yaml.str)) from rfl, huse]
      rfl
    show Except.map (fun tasks => ({ tasks } : RWXConfig))
        (List.mapM decodeTask
          [Yaml.map [("key", Yaml.str k), ("use", Yaml.list (L.map Yaml.str))]])
        = _
    rw [← List.mapM'_eq_mapM]
    simp only [List.mapM'_cons, htask]
    rfl

/-- C4: when an event sequence contains no "result"-typed event, Summary
returns an error value (the Go error, not a crash), and the snapshot it
returns still carries the tool names and the skill names derived from the
partial trace. -/
theorem C4_summary_errors_without_result_event (r : ExecutionResult)
    (h : ∀ e ∈ r.events, e.type ≠ "result") :
    r.Summary.2
      = some "no result event found in Claude output (Claude may have crashed mid-run)"
    ∧ r.Summary.1.toolsUsed = r.ToolNames
    ∧ r.Summary.1.skillsUsed = r.SkillUses := by
  have hre : r.ResultEvent = none := by
    unfold ExecutionResult.ResultEvent
    rw [List.find?_eq_none]
    intro e he
    simp [h e (List.mem_reverse.mp he)]
  unfold ExecutionResult.Summary
  rw [hre]
  exact ⟨rfl, rfl, rfl⟩

/-- A truncated trace: an init event and one assistant tool_use, but no
terminal result event. -/
def c4ex : ExecutionResult :=
  { events :=
      [ { type := "system", subtype := "init", skills := ["rwx:rwx"] },
        { type := "assistant",
          message := { role := "assistant",
                       content := [some { type := "tool_use", name := "Bash" }] } } ],
    prompt := "/rwx:rwx" }

theorem C4_witness :
    (∀ e ∈ c4ex.events, e.type ≠ "result")
    ∧ (c4ex.Summary.2
        = some "no result event found in Claude output (Claude may have crashed mid-run)"
      ∧ c4ex.Summary.1.toolsUsed = c4ex.ToolNames
      ∧ c4ex.Summary.1.skillsUsed = c4ex.SkillUses) :=
  ⟨by decide, C4_summary_errors_without_result_event c4ex (by decide)⟩

theorem mem_checkThreshold (metric : String) (b c : Int) (t : Rat) (m : String) :
    m ∈ checkThreshold metric b c t ↔
      m = regressionMsg metric b c ∧ b ≠ 0 ∧ ((c : Rat) - (b : Rat)) / (b : Rat) > t := by
  unfold checkThreshold
  by_cases hb : b = 0
  · simp [hb]
  · simp only [if_neg hb]
    by_cases ht : ((c : Rat) - (b : Rat)) / (b : Rat) > t
    · simp [if_pos ht, hb, ht]
    · simp [if_neg ht, hb, ht]

theorem regMsg_input_ne_output (b₁ c₁ b₂ c₂ : Int) :
    regressionMsg "input_tokens" b₁ c₁ ≠ regressionMsg "output_tokens" b₂ c₂ := by
  intro h
  have hh := congrArg (fun s => s.data.head?) h
  simp only [regressionMsg] at hh
  rw [show ∀ x : String, ("input_tokens" ++ x).data.head? = some 'i' from fun x => rfl,
      show ∀ y : String, ("output_tokens" ++ y).data.head? = some 'o' from fun y => rfl] at hh
  exact absurd (Option.some.inj hh) (by decide)

theorem regMsg_input_ne_time (b₁ c₁ b₂ c₂ : Int) :
    regressionMsg "input_tokens" b₁ c₁ ≠ regressionMsg "execution_time_ms" b₂ c₂ := by
  intro h
  have hh := congrArg (fun s => s.data.head?) h
  simp only [regressionMsg] at hh
  rw [show ∀ x : String, ("input_tokens" ++ x).data.head? = some 'i' from fun x => rfl,
      show ∀ y : String, ("execution_time_ms" ++ y).data.head? = some 'e' from fun y => rfl] at hh
  exact absurd (Option.some.inj hh) (by decide)

theorem regMsg_output_ne_time (b₁ c₁ b₂ c₂ : Int) :
    regressionMsg "output_tokens" b₁ c₁ ≠ regressionMsg "execution_time_ms" b₂ c₂ := by
  intro h
  have hh := congrArg (fun s => s.data.head?) h
  simp only [regressionMsg] at hh
  rw [show ∀ x : String, ("output_tokens" ++ x).data.head? = some 'o' from fun x => rfl,
      show ∀ y : String, ("execution_time_ms" ++ y).data.head? = some 'e' from fun y => rfl] at hh
  exact absurd (Option.some.inj hh) (by decide)

/-- C5: with no recorded baseline (and not in update mode) the regression
check emits no failure and warns, regardless of the current metrics; with a
recorded baseline, each of the three metrics is compared against its own
threshold (20 percent input tokens, 30 percent output tokens, 50 percent
execution time), a metric's failure message is reported exactly when its own
baseline is nonzero and its own relative increase exceeds its own threshold
(so every exceeding metric is reported, not just the first, and a zero
baseline metric is skipped rather than divided by). -/
theorem C5_regression_warn_and_thresholds :
    (∀ current : Baseline,
      (AssertNoRegression false none current).failures = []
      ∧ (AssertNoRegression false none current).warnedNoBaseline = true)
    ∧ (∀ p c : Baseline,
      (regressionMsg "input_tokens" p.inputTokens c.inputTokens
          ∈ (AssertNoRegression false (some p) c).failures
        ↔ p.inputTokens ≠ 0
          ∧ ((c.inputTokens : Rat) - (p.inputTokens : Rat)) / (p.inputTokens : Rat)
              > 20/100)
      ∧ (regressionMsg "output_tokens" p.outputTokens c.outputTokens
          ∈ (AssertNoRegression false (some p) c).failures
        ↔ p.outputTokens ≠ 0
          ∧ ((c.outputTokens : Rat) - (p.outputTokens : Rat)) / (p.outputTokens : Rat)
              > 30/100)
      ∧ (regressionMsg "execution_time_ms" p.executionTimeMS c.executionTimeMS
          ∈ (AssertNoRegression false (some p) c).failures
        ↔ p.executionTimeMS ≠ 0
          ∧ ((c.executionTimeMS : Rat) - (p.executionTimeMS : Rat)) / (p.executionTimeMS : Rat)
              > 50/100)) := by
  refine ⟨fun current => ⟨rfl, rfl⟩, ?_⟩
  intro p c
  have hfail : (AssertNoRegression false (some p) c).failures
      = checkThreshold "input_tokens" p.inputTokens c.inputTokens (20/100)
        ++ checkThreshold "output_tokens" p.outputTokens c.outputTokens (30/100)
        ++ checkThreshold "execution_time_ms" p.executionTimeMS c.executionTimeMS (50/100) :=
    rfl
  refine ⟨?_, ?_, ?_⟩
  · rw [hfail]
    simp only [List.mem_append, mem_checkThreshold]
    constructor
    · rintro ((⟨_, hb, ht⟩ | ⟨he, _, _⟩) | ⟨he, _, _⟩)
      · exact ⟨hb, ht⟩
      · exact absurd he (regMsg_input_ne_output _ _ _ _)
      · exact absurd he (regMsg_input_ne_time _ _ _ _)
    · rintro ⟨hb, ht⟩
      exact Or.inl (Or.inl ⟨trivial, hb, ht⟩)
  · rw [hfail]
    simp only [List.mem_append, mem_checkThreshold]
    constructor
    · rintro ((⟨he, _, _⟩ | ⟨_, hb, ht⟩) | ⟨he, _, _⟩)
      · exact absurd he.symm (regMsg_input_ne_output _ _ _ _)
      · exact ⟨hb, ht⟩
      · exact absurd he (regMsg_output_ne_time _ _ _ _)
    · rintro ⟨hb, ht⟩
      exact Or.inl (Or.inr ⟨trivial, hb, ht⟩)
  · rw [hfail]
    simp only [List.mem_append, mem_checkThreshold]
    constructor
    · rintro ((⟨he, _, _⟩ | ⟨he, _, _⟩) | ⟨_, hb, ht⟩)
      · exact absurd he.symm (regMsg_input_ne_time _ _ _ _)
      · exact absurd he.symm (regMsg_output_ne_time _ _ _ _)
      · exact ⟨hb, ht⟩
    · rintro ⟨hb, ht⟩
      exact Or.inr ⟨trivial, hb, ht⟩

theorem skillAcc_eq (acc : List String) (item : ContentItem) :
    skillAcc acc item =
      match toolSkillOf item with
      | some s => insertNew acc s
      | none => acc := by
  unfold skillAcc toolSkillOf insertNew
  cases hn : (item.name == "Skill") with
  | false => simp
  | true =>
    simp only [if_pos rfl]
    match item.input with
    | none => simp
    | some none => simp
    | some (some si) =>
      by_cases hs : si.skill = "" <;> by_cases hm : si.skill ∈ acc <;>
        simp [hs, hm]

theorem foldl_skillAcc (items : List ContentItem) (acc : List String) :
    items.foldl skillAcc acc = (items.filterMap toolSkillOf).foldl insertNew acc := by
  induction items generalizing acc with
  | nil => rfl
  | cons it rest ih =>
    rw [List.foldl_cons, skillAcc_eq]
    cases hts : toolSkillOf it with
    | none => rw [List.filterMap_cons_none hts]; exact ih acc
    | some s => rw [List.filterMap_cons_some hts, List.foldl_cons]; exact ih _

theorem isRegisteredSkill_iff (r : ExecutionResult) (n : String) :
    r.isRegisteredSkill n = true ↔ n ∈ initSkills r := by
  unfold ExecutionResult.isRegisteredSkill initSkills
  rcases hf : r.events.find? (fun e => e.type == "system" && e.subtype == "init") with
    _ | e <;> simp [hf]

/-- SkillUses is exactly the order-preserving deduplication of the
tool-based detection path followed by the prompt-based detection path. -/
theorem skillUses_eq (r : ExecutionResult) :
    r.SkillUses = dedupFirst (rawToolSkills r ++ promptSkills r) := by
  unfold ExecutionResult.SkillUses promptSkills dedupFirst rawToolSkills
  rw [List.foldl_append, ← foldl_skillAcc]
  by_cases hg : r.prompt ≠ "" ∧ goStrHasPre r.prompt "/" = true
  · rw [if_pos hg, if_pos hg]
    by_cases hn : goFirstSpaceToken (strTail r.prompt) ≠ ""
        ∧ goFirstSpaceToken (strTail r.prompt) ∈ initSkills r
    · rw [if_pos hn]
      have hreg : r.isRegisteredSkill (goFirstSpaceToken (strTail r.prompt)) = true :=
        (isRegisteredSkill_iff r _).mpr hn.2
      by_cases hm : goFirstSpaceToken (strTail r.prompt) ∈ r.ToolUses.foldl skillAcc []
      · rw [if_neg (by simp [hm]), List.foldl_cons, List.foldl_nil]
        simp [insertNew, hm]
      · rw [if_pos ⟨hn.1, hm, hreg⟩, List.foldl_cons, List.foldl_nil]
        simp [insertNew, hm]
    · rw [if_neg hn, List.foldl_nil, if_neg]
      rintro ⟨h1, _, h3⟩
      exact hn ⟨h1, (isRegisteredSkill_iff r _).mp h3⟩
  · rw [if_neg hg, if_neg hg, List.foldl_nil]

/-- C6 counterexample: for a run whose prompt is "/rwx" followed by a tab and
an argument, the leading token up to the first whitespace is "rwx" and "rwx"
is listed by the init event, yet SkillUses is empty: the code splits the
prompt at the first space character only, not at the first whitespace. -/
def c6ex : ExecutionResult :=
  { events := [{ type := "system", subtype := "init", skills := ["rwx"] }],
    prompt := "/rwx\tgo" }

theorem C6_counterexample_whitespace_token :
    goStrHasPre c6ex.prompt "/" = true
    ∧ specLeadingWsToken (strTail c6ex.prompt) = "rwx"
    ∧ c6ex.isRegisteredSkill "rwx" = true
    ∧ c6ex.SkillUses = [] := by decide

/-- C6 (amended): SkillUses merges the tool-based path with the prompt-based
path, deduplicated preserving order of first appearance, where the
prompt-based path extracts the leading token of the prompt (after the slash)
up to the first space character and accepts it only when nonempty and listed
in the skills list of the run's first system/init event. -/
theorem C6_skillUses_space_token_merge :
    ∀ r : ExecutionResult,
      r.SkillUses = dedupFirst (rawToolSkills r ++ promptSkills r) :=
  skillUses_eq

/-- C8: slash-command skill registration consults only the first system/init
event: with no init event every candidate is rejected, and a candidate absent
from the first init event's skills list is rejected whatever the following
events (in particular even if a later init event lists it). -/
theorem C8_first_init_event_only :
    (∀ (r : ExecutionResult) (n : String),
        (∀ e ∈ r.events, ¬(e.type = "system" ∧ e.subtype = "init")) →
        r.isRegisteredSkill n = false)
    ∧ (∀ (pre rest : List ClaudeEvent) (e₁ : ClaudeEvent) (raw : List UInt8)
          (prompt n : String),
        (∀ e ∈ pre, ¬(e.type = "system" ∧ e.subtype = "init")) →
        e₁.type = "system" → e₁.subtype = "init" → n ∉ e₁.skills →
        (ExecutionResult.mk (pre ++ e₁ :: rest) raw prompt).isRegisteredSkill n
          = false) := by
  constructor
  · intro r n h
    unfold ExecutionResult.isRegisteredSkill
    rw [show r.events.find? (fun e => e.type == "system" && e.subtype == "init") = none by
      rw [List.find?_eq_none]
      intro e he
      have := h e he
      simp only [Bool.and_eq_true, beq_iff_eq]
      exact fun hc => this hc]
  · intro pre rest e₁ raw prompt n hpre h1 h2 hn
    unfold ExecutionResult.isRegisteredSkill
    have hfpre : pre.find? (fun e => e.type == "system" && e.subtype == "init") = none := by
      rw [List.find?_eq_none]
      intro e he
      have := hpre e he
      simp only [Bool.and_eq_true, beq_iff_eq]
      exact fun hc => this hc
    have hfe : (e₁ :: rest).find? (fun e => e.type == "system" && e.subtype == "init")
        = some e₁ := by
      rw [List.find?_cons_of_pos]
      simp [h1, h2]
    simp only [List.find?_append, hfpre, hfe, Option.none_or]
    simpa using hn

def c8later : ClaudeEvent :=
  { type := "system", subtype := "init", skills := ["rwx"] }

def c8first : ClaudeEvent :=
  { type := "system", subtype := "init", skills := ["other"] }

theorem C8_witness :
    (∀ e ∈ ([] : List ClaudeEvent), ¬(e.type = "system" ∧ e.subtype = "init"))
    ∧ c8first.type = "system" ∧ c8first.subtype = "init" ∧ "rwx" ∉ c8first.skills
    ∧ (ExecutionResult.mk ([] ++ c8first :: [c8later]) [] "/rwx").isRegisteredSkill "rwx"
        = false :=
  ⟨by decide, rfl, rfl, by decide,
    C8_first_init_event_only.2 [] [c8later] c8first [] "/rwx" "rwx"
      (by decide) rfl rfl (by decide)⟩

theorem parseAllConfigs_ok_iff :
    ∀ (files : List (String × Option Yaml)) (cfgs : List RWXConfig),
      parseAllConfigs files = Except.ok cfgs ↔
        List.Forall₂ (fun f c => ParseRWXConfig f.2 = Except.ok c) files cfgs := by
  intro files
  induction files with
  | nil =>
    intro cfgs
    constructor
    · intro h
      cases hc : cfgs with
      | nil => exact List.Forall₂.nil
      | cons c cs =>
        rw [hc] at h
        exact absurd h (by simp [parseAllConfigs])
    · intro h
      cases h
      rfl
  | cons f rest ih =>
    intro cfgs
    constructor
    · intro h
      unfold parseAllConfigs at h
      cases hp : ParseRWXConfig f.2 with
      | error e =>
        rw [hp] at h
        exact absurd h (by simp)
      | ok c =>
        rw [hp] at h
        cases hr : parseAllConfigs rest with
        | error e =>
          rw [hr] at h
          exact absurd h (by simp [Except.map])
        | ok cs =>
          rw [hr] at h
          simp only [Except.map] at h
          cases h
          exact List.Forall₂.cons hp ((ih cs).mp hr)
    · intro h
      cases h with
      | cons hf hrest =>
        unfold parseAllConfigs
        rw [hf, (ih _).mpr hrest]
        rfl

/-- C7: multi-file config loading succeeds exactly when the glob of the
fixed .rwx subdirectory matches at least one .yml file and every matched
file parses, in which case the returned configs are the per-file parses in
order; zero matches or any single parse failure fails the whole operation
and yields no configs. -/
theorem C7_loadConfigs_all_or_nothing :
    ∀ entries : List (String × Option Yaml),
      ((rwxMatches entries).isEmpty = true →
        ∀ cfgs, LoadRWXConfigs entries ≠ Except.ok cfgs)
      ∧ (∀ cfgs, LoadRWXConfigs entries = Except.ok cfgs ↔
          (rwxMatches entries).isEmpty = false
          ∧ List.Forall₂ (fun f c => ParseRWXConfig f.2 = Except.ok c)
              (rwxMatches entries) cfgs) := by
  intro entries
  constructor
  · intro he cfgs h
    unfold LoadRWXConfigs at h
    rw [if_pos he] at h
    exact absurd h (by simp)
  · intro cfgs
    unfold LoadRWXConfigs
    cases he : (rwxMatches entries).isEmpty with
    | true =>
      rw [if_pos rfl]
      constructor
      · intro h
        exact absurd h (by simp)
      · rintro ⟨hfalse, _⟩
        cases hfalse
    | false =>
      rw [if_neg (by simp)]
      rw [parseAllConfigs_ok_iff]
      constructor
      · intro h
        exact ⟨rfl, h⟩
      · rintro ⟨_, h⟩
        exact h

/-- A directory listing for the load witness: one well-formed .rwx/\x2a.yml
file and one file the glob must ignore. -/
def c7entries : List (String × Option Yaml) :=
  [("tasks.yml", some (Yaml.map [("tasks", Yaml.list [Yaml.map [("key", Yaml.str "build")]])])),
   ("README.md", none)]

theorem C7_witness :
    LoadRWXConfigs c7entries = Except.ok [{ tasks := [{ key := "build" }] }]
    ∧ ((rwxMatches c7entries).isEmpty = false
       ∧ List.Forall₂ (fun f c => ParseRWXConfig f.2 = Except.ok c)
           (rwxMatches c7entries) [{ tasks := [{ key := "build" }] }]) :=
  ⟨rfl, ((C7_loadConfigs_all_or_nothing c7entries).2 _).mp rfl⟩

/-! ### Closed instantiations of the quantified theorems -/

def c1cfg : RWXConfig :=
  { tasks := [{ key := "versioned", call := "git/clone 2.0.2" },
              { key := "similar", call := "git/clone-extra 1.0.0" }] }

theorem C1_witness :
    c1cfg.HasTaskWithCall "git/clone" = true ↔
      ∃ t ∈ c1cfg.tasks,
        t.call = "git/clone" ∨ ∃ ver : String, t.call = "git/clone" ++ " " ++ ver :=
  C1_hasTaskWithCall_exact_or_versioned.1 c1cfg "git/clone"

def c2cfg : RWXConfig := { tasks := [{ key := "code", call := "git/clone 2.0.2" }] }

theorem C2_witness :
    ((∃ a ∈ [HasTask "code"], a.check c2cfg = [])
      ∧ (Either "clones_repo" [HasTask "code"]).check c2cfg = [])
    ∨ ((∀ a ∈ [HasTask "code"], a.check c2cfg ≠ [])
      ∧ (Either "clones_repo" [HasTask "code"]).check c2cfg
          = ["none of the alternatives passed: "
              ++ goStrSlice ([HasTask "code"].map ConfigAssertion.name)]) :=
  C2_either_succeeds_iff_some_candidate "clones_repo" [HasTask "code"] c2cfg

theorem C3_witness :
    decodeFlexStrings (Yaml.str "test") = Except.ok ["test"] :=
  C3_flexStrings_scalar_or_list.1 "test"

def c5prev : Baseline := { inputTokens := 100, outputTokens := 100, executionTimeMS := 0 }

def c5cur : Baseline := { inputTokens := 150, outputTokens := 110, executionTimeMS := 999 }

theorem C5_witness :
    regressionMsg "input_tokens" c5prev.inputTokens c5cur.inputTokens
        ∈ (AssertNoRegression false (some c5prev) c5cur).failures
      ↔ c5prev.inputTokens ≠ 0
        ∧ ((c5cur.inputTokens : Rat) - (c5prev.inputTokens : Rat))
            / (c5prev.inputTokens : Rat) > 20/100 :=
  (C5_regression_warn_and_thresholds.2 c5prev c5cur).1

theorem C6_witness :
    c6ex.SkillUses = dedupFirst (rawToolSkills c6ex ++ promptSkills c6ex) :=
  C6_skillUses_space_token_merge c6ex

def c9cfg : RWXConfig := { tasks := [{ key := "t", run := "MYKEY=1" }] }

theorem C9_witness :
    (HasEnvVar "KEY").check c9cfg = [] ↔
      ∃ t ∈ c9cfg.tasks,
        (t.env.lookup "KEY").isSome = true ∨ ("KEY" ++ "=").toList <:+: t.run.toList :=
  C9_hasEnvVar_textual_heuristic.1 "KEY" c9cfg

end RWXSkills
